import Mathlib

set_option autoImplicit false
set_option maxRecDepth 100000

/-!
Verification of the helper module `03-buttons/bydariogamer/utils.py` of the
WeeklyChallenges repository: asset loading, memoization caches, centered
blitting and the nine-patch compositor.

Shallow embedding conventions:
* a pygame `Surface` is a pixel buffer of given width/height; pixel values
  (RGBA words) are abstracted as natural numbers;
* `Surface.blit` models pygame blitting as a clipped pixel copy (alpha
  blending is abstracted away: pixel provenance, which is all the claims
  speak about, is unaffected);
* `pygame.transform.scale` is modelled as nearest-neighbour resampling,
  consistently for all scaled pieces;
* Python ints appearing as sizes are modelled as `Nat` where the code only
  produces nonnegative values under the spec's preconditions (the spec
  declares undersized nine-patch targets undefined behaviour); positions of
  rectangles may be negative and are modelled as `Int`;
* `functools.lru_cache` is modelled explicitly as a most-recent-first
  association list with capacity (`lru_cache()` defaults to capacity 128);
  computed values are represented by fresh allocation identifiers so that
  object identity of cached results is expressible.
-/

/-- A pygame `Surface`: an in-memory 2D pixel buffer.  `pix` is total, but
only the values at coordinates `x < w`, `y < h` are meaningful. -/
structure Surface where
  w : Nat
  h : Nat
  pix : Nat → Nat → Nat

/-- `pygame.Surface(size, SRCALPHA)`: a freshly allocated surface, all
pixels transparent (encoded 0). -/
def Surface.new (w h : Nat) : Surface :=
  ⟨w, h, fun _ _ => 0⟩

/-- `surface.subsurface(x, y, w, h)`: read-only view of a rectangular
region of `surface` with top-left corner `(x, y)`. -/
def Surface.subsurface (s : Surface) (x y w h : Nat) : Surface :=
  ⟨w, h, fun i j => s.pix (x + i) (y + j)⟩

/-- `pygame.transform.scale(s, size)`: resample `s` to the given size
(nearest-neighbour). -/
def transform_scale (s : Surface) (size : Nat × Nat) : Surface :=
  ⟨size.1, size.2, fun i j => s.pix (i * s.w / size.1) (j * s.h / size.2)⟩

/-- `dest.blit(src, (px, py))`: copy `src` onto `dest` with top-left corner
at `(px, py)`, clipped to the bounds of `dest`; the destination size is
unchanged. -/
def Surface.blit (dest src : Surface) (p : Nat × Nat) : Surface :=
  ⟨dest.w, dest.h, fun x y =>
    if p.1 ≤ x ∧ x < p.1 + src.w ∧ p.2 ≤ y ∧ y < p.2 + src.h ∧
        x < dest.w ∧ y < dest.h
    then src.pix (x - p.1) (y - p.2)
    else dest.pix x y⟩

/-- `pygame.Rect`: integer position and size.  Only nonnegative sizes are
modelled: every use in the module creates surfaces from the size, for which
negative values are outside the spec (undefined/degenerate per §7). -/
structure Rect where
  x : Int
  y : Int
  w : Nat
  h : Nat
deriving DecidableEq

/-- `rect.center`: `(x + w // 2, y + h // 2)`. -/
def Rect.center (r : Rect) : Int × Int :=
  (r.x + ((r.w / 2 : Nat) : Int), r.y + ((r.h / 2 : Nat) : Int))

/-- `subsurf_w = surface.get_width() // 3` (utils.py line 83). -/
def subsurf_w (surface : Surface) : Nat := surface.w / 3

/-- `subsurf_h = surface.get_height() // 3` (utils.py line 84). -/
def subsurf_h (surface : Surface) : Nat := surface.h / 3

/-- Region `a1 = surface.subsurface(0, 0, subsurf_w, subsurf_h)`. -/
def a1 (s : Surface) : Surface :=
  s.subsurface 0 0 (subsurf_w s) (subsurf_h s)

/-- Region `a2 = surface.subsurface(subsurf_w, 0, subsurf_w, subsurf_h)`. -/
def a2 (s : Surface) : Surface :=
  s.subsurface (subsurf_w s) 0 (subsurf_w s) (subsurf_h s)

/-- Region `a3 = surface.subsurface(2 * subsurf_w, 0, subsurf_w, subsurf_h)`. -/
def a3 (s : Surface) : Surface :=
  s.subsurface (2 * subsurf_w s) 0 (subsurf_w s) (subsurf_h s)

/-- Region `b1 = surface.subsurface(0, subsurf_h, subsurf_w, subsurf_h)`. -/
def b1 (s : Surface) : Surface :=
  s.subsurface 0 (subsurf_h s) (subsurf_w s) (subsurf_h s)

/-- Region `b2 = surface.subsurface(subsurf_w, subsurf_h, subsurf_w, subsurf_h)`. -/
def b2 (s : Surface) : Surface :=
  s.subsurface (subsurf_w s) (subsurf_h s) (subsurf_w s) (subsurf_h s)

/-- Region `b3 = surface.subsurface(2 * subsurf_w, subsurf_h, subsurf_w, subsurf_h)`. -/
def b3 (s : Surface) : Surface :=
  s.subsurface (2 * subsurf_w s) (subsurf_h s) (subsurf_w s) (subsurf_h s)

/-- Region `c1 = surface.subsurface(0, 2 * subsurf_h, subsurf_w, subsurf_h)`. -/
def c1 (s : Surface) : Surface :=
  s.subsurface 0 (2 * subsurf_h s) (subsurf_w s) (subsurf_h s)

/-- Region `c2 = surface.subsurface(subsurf_w, 2 * subsurf_h, subsurf_w, subsurf_h)`. -/
def c2 (s : Surface) : Surface :=
  s.subsurface (subsurf_w s) (2 * subsurf_h s) (subsurf_w s) (subsurf_h s)

/-- Region `c3 = surface.subsurface(2 * subsurf_w, 2 * subsurf_h, subsurf_w, subsurf_h)`. -/
def c3 (s : Surface) : Surface :=
  s.subsurface (2 * subsurf_w s) (2 * subsurf_h s) (subsurf_w s) (subsurf_h s)

/-- Body of `ninepatch(surface, rect)` (utils.py lines 80–115) as explicit
state passing: the pair is `(surface, result)`; every imperative write of
the body is a `result.blit`, so only the second component is ever updated.
The size arithmetic `rect.w - 2 * subsurf_w` etc. is `Nat` subtraction,
which matches Python on the spec's valid targets (`w ≥ 2·subsurf_w`,
`h ≥ 2·subsurf_h`); below that, the source behaviour is undefined (§7). -/
def ninepatchRun (surface : Surface) (rect : Rect) : Surface × Surface :=
  let result := Surface.new rect.w rect.h
  let sw := subsurf_w surface
  let sh := subsurf_h surface
  let result := result.blit (a1 surface) (0, 0)
  let result := result.blit (transform_scale (a2 surface) (rect.w - 2 * sw, sh)) (sw, 0)
  let result := result.blit (a3 surface) (rect.w - sw, 0)
  let result := result.blit (transform_scale (b1 surface) (sw, rect.h - 2 * sh)) (0, sh)
  let result := result.blit
    (transform_scale (b2 surface) (rect.w - 2 * sw, rect.h - 2 * sh)) (sw, sh)
  let result := result.blit
    (transform_scale (b3 surface) (sw, rect.h - 2 * sh)) (rect.w - sw, sh)
  let result := result.blit (c1 surface) (0, rect.h - sh)
  let result := result.blit
    (transform_scale (c2 surface) (rect.w - 2 * sw, sh)) (sw, rect.h - sh)
  let result := result.blit (c3 surface) (rect.w - sw, rect.h - sh)
  (surface, result)

/-- `ninepatch(surface, rect)`: the returned `result` surface. -/
def ninepatch (surface : Surface) (rect : Rect) : Surface :=
  (ninepatchRun surface rect).2

/-! Basic dimension lemmas. -/

@[simp] theorem Surface.blit_w (d s : Surface) (p : Nat × Nat) :
    (d.blit s p).w = d.w := rfl

@[simp] theorem Surface.blit_h (d s : Surface) (p : Nat × Nat) :
    (d.blit s p).h = d.h := rfl

@[simp] theorem transform_scale_w (s : Surface) (size : Nat × Nat) :
    (transform_scale s size).w = size.1 := rfl

@[simp] theorem transform_scale_h (s : Surface) (size : Nat × Nat) :
    (transform_scale s size).h = size.2 := rfl

@[simp] theorem a1_w (s : Surface) : (a1 s).w = subsurf_w s := rfl
@[simp] theorem a1_h (s : Surface) : (a1 s).h = subsurf_h s := rfl
@[simp] theorem a3_w (s : Surface) : (a3 s).w = subsurf_w s := rfl
@[simp] theorem a3_h (s : Surface) : (a3 s).h = subsurf_h s := rfl
@[simp] theorem c1_w (s : Surface) : (c1 s).w = subsurf_w s := rfl
@[simp] theorem c1_h (s : Surface) : (c1 s).h = subsurf_h s := rfl
@[simp] theorem c3_w (s : Surface) : (c3 s).w = subsurf_w s := rfl
@[simp] theorem c3_h (s : Surface) : (c3 s).h = subsurf_h s := rfl

theorem Surface.blit_pix_out (d s : Surface) (p : Nat × Nat) (x y : Nat)
    (hc : ¬(p.1 ≤ x ∧ x < p.1 + s.w ∧ p.2 ≤ y ∧ y < p.2 + s.h ∧
        x < d.w ∧ y < d.h)) :
    (d.blit s p).pix x y = d.pix x y := by
  simp only [Surface.blit]
  exact if_neg hc

theorem Surface.blit_pix_in (d s : Surface) (p : Nat × Nat) (x y : Nat)
    (hc : p.1 ≤ x ∧ x < p.1 + s.w ∧ p.2 ≤ y ∧ y < p.2 + s.h ∧
        x < d.w ∧ y < d.h) :
    (d.blit s p).pix x y = s.pix (x - p.1) (y - p.2) := by
  simp only [Surface.blit]
  exact if_pos hc

/-- A 9×9 test surface with pairwise distinct pixel values. -/
def testSurf9 : Surface := ⟨9, 9, fun x y => 10 * y + x⟩

/-- A 4×4 test surface (dimensions not a multiple of 3). -/
def testSurf4 : Surface := ⟨4, 4, fun x y => 10 * y + x⟩

/-- A 30×30 target rectangle. -/
def testRect30 : Rect := ⟨0, 0, 30, 30⟩

/-- C1: for every source surface of size at least 3×3 and every target size
`(w, h)` with `w ≥ 2·(source_w / 3)` and `h ≥ 2·(source_h / 3)` (integer
division), the surface returned by `ninepatch` has pixel dimensions exactly
`(w, h)`. -/
theorem ninepatch_output_size (s : Surface) (rect : Rect)
    (hW : 3 ≤ s.w) (hH : 3 ≤ s.h)
    (hrw : 2 * subsurf_w s ≤ rect.w) (hrh : 2 * subsurf_h s ≤ rect.h) :
    (ninepatch s rect).w = rect.w ∧ (ninepatch s rect).h = rect.h := by
  constructor <;> rfl

/-- Witness for C1: a 9×9 source composited to a 30×30 target has output
dimensions 30×30. -/
theorem ninepatch_output_size_witness :
    3 ≤ testSurf9.w ∧ 3 ≤ testSurf9.h ∧
      2 * subsurf_w testSurf9 ≤ testRect30.w ∧
      2 * subsurf_h testSurf9 ≤ testRect30.h ∧
      (ninepatch testSurf9 testRect30).w = 30 ∧
      (ninepatch testSurf9 testRect30).h = 30 :=
  ⟨by decide, by decide, by decide, by decide,
    (ninepatch_output_size testSurf9 testRect30 (by decide) (by decide)
      (by decide) (by decide)).1,
    (ninepatch_output_size testSurf9 testRect30 (by decide) (by decide)
      (by decide) (by decide)).2⟩

@[simp] theorem Surface.new_w (w h : Nat) : (Surface.new w h).w = w := rfl
@[simp] theorem Surface.new_h (w h : Nat) : (Surface.new w h).h = h := rfl

/-- C2: on every valid target, the four `subsurf_w × subsurf_h` corner
regions of the output of `ninepatch` are pixel-for-pixel identical
(unscaled) to the corresponding corner regions of the source, placed at
`(0,0)`, `(w - subsurf_w, 0)`, `(0, h - subsurf_h)` and
`(w - subsurf_w, h - subsurf_h)`.  The corresponding source corner regions
start at offsets `0` and `2 * subsurf_w` (resp. `2 * subsurf_h`). -/
theorem ninepatch_corners (s : Surface) (rect : Rect)
    (hW : 3 ≤ s.w) (hH : 3 ≤ s.h)
    (hrw : 2 * subsurf_w s ≤ rect.w) (hrh : 2 * subsurf_h s ≤ rect.h)
    (i j : Nat) (hi : i < subsurf_w s) (hj : j < subsurf_h s) :
    (ninepatch s rect).pix i j = s.pix i j ∧
    (ninepatch s rect).pix (rect.w - subsurf_w s + i) j
      = s.pix (2 * subsurf_w s + i) j ∧
    (ninepatch s rect).pix i (rect.h - subsurf_h s + j)
      = s.pix i (2 * subsurf_h s + j) ∧
    (ninepatch s rect).pix (rect.w - subsurf_w s + i) (rect.h - subsurf_h s + j)
      = s.pix (2 * subsurf_w s + i) (2 * subsurf_h s + j) := by
  have hsw1 : 1 ≤ subsurf_w s := by unfold subsurf_w; omega
  have hsh1 : 1 ≤ subsurf_h s := by unfold subsurf_h; omega
  refine ⟨?_, ?_, ?_, ?_⟩
  · -- top-left corner: the pixel comes from the very first blit of `a1`
    simp only [ninepatch, ninepatchRun]
    rw [Surface.blit_pix_out, Surface.blit_pix_out, Surface.blit_pix_out,
        Surface.blit_pix_out, Surface.blit_pix_out, Surface.blit_pix_out,
        Surface.blit_pix_out, Surface.blit_pix_out, Surface.blit_pix_in]
    · simp [a1, Surface.subsurface]
    all_goals
      simp only [a1_w, a1_h, a3_w, a3_h, c1_w, c1_h, c3_w, c3_h,
        transform_scale_w, transform_scale_h, Surface.blit_w, Surface.blit_h,
        Surface.new_w, Surface.new_h]
      omega
  · -- top-right corner: the pixel comes from the blit of `a3`
    simp only [ninepatch, ninepatchRun]
    rw [Surface.blit_pix_out, Surface.blit_pix_out, Surface.blit_pix_out,
        Surface.blit_pix_out, Surface.blit_pix_out, Surface.blit_pix_out,
        Surface.blit_pix_in]
    · simp only [a3, Surface.subsurface]
      congr 2 <;> omega
    all_goals
      simp only [a1_w, a1_h, a3_w, a3_h, c1_w, c1_h, c3_w, c3_h,
        transform_scale_w, transform_scale_h, Surface.blit_w, Surface.blit_h,
        Surface.new_w, Surface.new_h]
      omega
  · -- bottom-left corner: the pixel comes from the blit of `c1`
    simp only [ninepatch, ninepatchRun]
    rw [Surface.blit_pix_out, Surface.blit_pix_out, Surface.blit_pix_in]
    · simp only [c1, Surface.subsurface]
      congr 2 <;> omega
    all_goals
      simp only [a1_w, a1_h, a3_w, a3_h, c1_w, c1_h, c3_w, c3_h,
        transform_scale_w, transform_scale_h, Surface.blit_w, Surface.blit_h,
        Surface.new_w, Surface.new_h]
      omega
  · -- bottom-right corner: the pixel comes from the last blit, of `c3`
    simp only [ninepatch, ninepatchRun]
    rw [Surface.blit_pix_in]
    · simp only [c3, Surface.subsurface]
      congr 2 <;> omega
    all_goals
      simp only [a1_w, a1_h, a3_w, a3_h, c1_w, c1_h, c3_w, c3_h,
        transform_scale_w, transform_scale_h, Surface.blit_w, Surface.blit_h,
        Surface.new_w, Surface.new_h]
      omega

/-- Witness for C2: the 9×9 test surface composited to 30×30 reproduces all
four source corners; instantiated at the corner-local pixel `(1, 2)`. -/
theorem ninepatch_corners_witness :
    3 ≤ testSurf9.w ∧ 3 ≤ testSurf9.h ∧
      2 * subsurf_w testSurf9 ≤ testRect30.w ∧
      2 * subsurf_h testSurf9 ≤ testRect30.h ∧
      1 < subsurf_w testSurf9 ∧ 2 < subsurf_h testSurf9 ∧
      ((ninepatch testSurf9 testRect30).pix 1 2 = testSurf9.pix 1 2 ∧
        (ninepatch testSurf9 testRect30).pix (testRect30.w - subsurf_w testSurf9 + 1) 2
          = testSurf9.pix (2 * subsurf_w testSurf9 + 1) 2 ∧
        (ninepatch testSurf9 testRect30).pix 1 (testRect30.h - subsurf_h testSurf9 + 2)
          = testSurf9.pix 1 (2 * subsurf_h testSurf9 + 2) ∧
        (ninepatch testSurf9 testRect30).pix (testRect30.w - subsurf_w testSurf9 + 1)
            (testRect30.h - subsurf_h testSurf9 + 2)
          = testSurf9.pix (2 * subsurf_w testSurf9 + 1) (2 * subsurf_h testSurf9 + 2)) :=
  ⟨by decide, by decide, by decide, by decide, by decide, by decide,
    ninepatch_corners testSurf9 testRect30 (by decide) (by decide) (by decide)
      (by decide) 1 2 (by decide) (by decide)⟩

/-- C8: `ninepatch` does not mutate the source surface: the source component
of the state threaded through the body is the unchanged input; the only
effect is allocating and returning the new `result` surface. -/
theorem ninepatch_source_unchanged (s : Surface) (rect : Rect) :
    (ninepatchRun s rect).1 = s ∧
      ∀ x y : Nat, ((ninepatchRun s rect).1).pix x y = s.pix x y :=
  ⟨rfl, fun _ _ => rfl⟩

/-- C3 counterexample: for the 4×4 source (neither dimension a multiple of
3, remainder 1), the rightmost regions `a3`, `b3`, `c3` have width exactly
`4 / 3 = 1`, not `1 + 1 = 2`, and the bottommost regions `c1`, `c2`, `c3`
have height exactly `1`, not `2`: the remainder is not absorbed. -/
theorem ninepatch_remainder_counterexample :
    testSurf4.w % 3 = 1 ∧ testSurf4.h % 3 = 1 ∧
      (a3 testSurf4).w = 1 ∧ (b3 testSurf4).w = 1 ∧ (c3 testSurf4).w = 1 ∧
      (c1 testSurf4).h = 1 ∧ (c2 testSurf4).h = 1 ∧ (c3 testSurf4).h = 1 ∧
      ¬((a3 testSurf4).w = subsurf_w testSurf4 + testSurf4.w % 3) ∧
      ¬((c3 testSurf4).h = subsurf_h testSurf4 + testSurf4.h % 3) := by
  decide

/-- C3 amended: `ninepatch` partitions the source into 9 regions all of
width exactly `source_w / 3` and height exactly `source_h / 3` (integer
division); the regions read only source pixels with `x < 3 * (source_w / 3)`
and `y < 3 * (source_h / 3)`, so for non-multiple-of-3 dimensions the
remainder pixels at the right/bottom edges belong to no region (they are
dropped, not absorbed). -/
theorem ninepatch_region_partition (s : Surface) :
    ((a1 s).w = s.w / 3 ∧ (a2 s).w = s.w / 3 ∧ (a3 s).w = s.w / 3 ∧
      (b1 s).w = s.w / 3 ∧ (b2 s).w = s.w / 3 ∧ (b3 s).w = s.w / 3 ∧
      (c1 s).w = s.w / 3 ∧ (c2 s).w = s.w / 3 ∧ (c3 s).w = s.w / 3) ∧
    ((a1 s).h = s.h / 3 ∧ (a2 s).h = s.h / 3 ∧ (a3 s).h = s.h / 3 ∧
      (b1 s).h = s.h / 3 ∧ (b2 s).h = s.h / 3 ∧ (b3 s).h = s.h / 3 ∧
      (c1 s).h = s.h / 3 ∧ (c2 s).h = s.h / 3 ∧ (c3 s).h = s.h / 3) ∧
    (∀ dx dy : Nat,
      (c3 s).pix dx dy = s.pix (2 * (s.w / 3) + dx) (2 * (s.h / 3) + dy)) ∧
    (∀ dx : Nat, dx < subsurf_w s →
      2 * subsurf_w s + dx < 3 * subsurf_w s ∧ 3 * subsurf_w s ≤ s.w) ∧
    (∀ dy : Nat, dy < subsurf_h s →
      2 * subsurf_h s + dy < 3 * subsurf_h s ∧ 3 * subsurf_h s ≤ s.h) := by
  refine ⟨⟨rfl, rfl, rfl, rfl, rfl, rfl, rfl, rfl, rfl⟩,
    ⟨rfl, rfl, rfl, rfl, rfl, rfl, rfl, rfl, rfl⟩,
    fun dx dy => rfl, fun dx hdx => ?_, fun dy hdy => ?_⟩
  · unfold subsurf_w at *
    omega
  · unfold subsurf_h at *
    omega

/-- Witness for the amended C3 theorem on the 4×4 source. -/
theorem ninepatch_region_partition_witness :
    (a3 testSurf4).w = testSurf4.w / 3 ∧ 0 < subsurf_w testSurf4 ∧
      0 < subsurf_h testSurf4 ∧
      (2 * subsurf_w testSurf4 + 0 < 3 * subsurf_w testSurf4 ∧
        3 * subsurf_w testSurf4 ≤ testSurf4.w) ∧
      (2 * subsurf_h testSurf4 + 0 < 3 * subsurf_h testSurf4 ∧
        3 * subsurf_h testSurf4 ≤ testSurf4.h) :=
  ⟨(ninepatch_region_partition testSurf4).1.2.2.1, by decide, by decide,
    (ninepatch_region_partition testSurf4).2.2.2.1 0 (by decide),
    (ninepatch_region_partition testSurf4).2.2.2.2 0 (by decide)⟩

/-- `screen.blit(src, rect)` with a possibly negative top-left position
(pygame clips the copy to the destination bounds). -/
def blitAt (dest src : Surface) (p : Int × Int) : Surface :=
  ⟨dest.w, dest.h, fun x y =>
    if p.1 ≤ (x : Int) ∧ (x : Int) < p.1 + src.w ∧ p.2 ≤ (y : Int) ∧
        (y : Int) < p.2 + src.h ∧ x < dest.w ∧ y < dest.h
    then src.pix ((x : Int) - p.1).toNat ((y : Int) - p.2).toNat
    else dest.pix x y⟩

/-- `surface.get_rect(center=c)`: a rect of the surface size positioned so
that its center is `c`, i.e. top-left `(c.1 - w // 2, c.2 - h // 2)`. -/
def get_rect_center (s : Surface) (c : Int × Int) : Rect :=
  ⟨c.1 - ((s.w / 2 : Nat) : Int), c.2 - ((s.h / 2 : Nat) : Int), s.w, s.h⟩

/-- `blit_centered(screen, surface, rect)` (utils.py lines 76–77):
`screen.blit(surface, surface.get_rect(center=rect.center))`. -/
def blit_centered (screen surface : Surface) (rect : Rect) : Surface :=
  blitAt screen surface
    ((get_rect_center surface rect.center).x, (get_rect_center surface rect.center).y)

/-- C9: `blit_centered` places the image unscaled with its top-left corner
at `(cx - w // 2, cy - h // 2)` where `(cx, cy)` is the target rectangle's
center: the rect passed to the blit has exactly that top-left, and each
in-bounds image pixel `(i, j)` is copied verbatim to that offset. -/
theorem blit_centered_placement (screen surface : Surface) (rect : Rect) :
    (get_rect_center surface rect.center).x
        = rect.center.1 - ((surface.w / 2 : Nat) : Int) ∧
    (get_rect_center surface rect.center).y
        = rect.center.2 - ((surface.h / 2 : Nat) : Int) ∧
    ∀ i j x y : Nat, i < surface.w → j < surface.h →
      (x : Int) = rect.center.1 - ((surface.w / 2 : Nat) : Int) + i →
      (y : Int) = rect.center.2 - ((surface.h / 2 : Nat) : Int) + j →
      x < screen.w → y < screen.h →
      (blit_centered screen surface rect).pix x y = surface.pix i j := by
  refine ⟨rfl, rfl, fun i j x y hi hj hx hy hxs hys => ?_⟩
  simp only [blit_centered, blitAt, get_rect_center]
  rw [if_pos]
  · congr 1 <;> [skip; omega] <;> congr 1 <;> omega
  · refine ⟨by omega, by omega, by omega, by omega, hxs, hys⟩

/-- A 100×100 destination surface. -/
def testScreen : Surface := ⟨100, 100, fun _ _ => 7⟩

/-- A 10×10 image. -/
def testImg10 : Surface := ⟨10, 10, fun x y => 100 + 10 * y + x⟩

/-- A target rectangle with center `(50, 50)`. -/
def testRect50 : Rect := ⟨40, 40, 20, 20⟩

/-- Witness for C9: a 10×10 image centered on a rectangle with center
`(50, 50)` has its top-left corner placed at `(45, 45)`. -/
theorem blit_centered_placement_witness :
    testRect50.center = (50, 50) ∧
    (get_rect_center testImg10 testRect50.center).x = 45 ∧
    (get_rect_center testImg10 testRect50.center).y = 45 ∧
    (blit_centered testScreen testImg10 testRect50).pix 45 45
      = testImg10.pix 0 0 :=
  ⟨by decide, by decide, by decide,
    (blit_centered_placement testScreen testImg10 testRect50).2.2 0 0 45 45
      (by decide) (by decide) (by decide) (by decide) (by decide) (by decide)⟩

/-! ## The `functools.lru_cache` model

Each `@lru_cache(maxsize)`-decorated function owns one cache, modelled as
an association list ordered most-recently-used first.  Cached values are
the allocation identifiers of the computed result objects (`nextId` is the
next fresh identifier), so that object identity of results is expressible:
a repeated call returns the same object exactly when it returns the same
identifier without allocating. -/
structure LruState (K : Type) where
  entries : List (K × Nat)
  nextId : Nat

/-- Cache lookup: the value stored for `k`, if any. -/
def lruFind {K : Type} [DecidableEq K] : List (K × Nat) → K → Option Nat
  | [], _ => none
  | e :: es, k => if e.1 = k then some e.2 else lruFind es k

/-- Remove the entry for `k` (first occurrence). -/
def lruErase {K : Type} [DecidableEq K] : List (K × Nat) → K → List (K × Nat)
  | [], _ => []
  | e :: es, k => if e.1 = k then es else e :: lruErase es k

/-- One call through an `lru_cache(cap)`-wrapped function: on a hit the
stored result object is returned, without invoking the wrapped function,
and its entry moves to the front (most recently used); on a miss the
wrapped function allocates a fresh result, which is stored in front, and
if the cache then exceeds its capacity the rearmost entry — the least
recently used — is discarded. -/
def lruAccess {K : Type} [DecidableEq K] (cap : Nat) (st : LruState K)
    (k : K) : Nat × LruState K :=
  match lruFind st.entries k with
  | some v => (v, ⟨(k, v) :: lruErase st.entries k, st.nextId⟩)
  | none =>
    let entries := (k, st.nextId) :: st.entries
    (st.nextId,
      ⟨if cap < entries.length then entries.dropLast else entries,
        st.nextId + 1⟩)

/-- Run a sequence of calls through the cache. -/
def lruRun {K : Type} [DecidableEq K] (cap : Nat) (st : LruState K) :
    List K → LruState K
  | [] => st
  | k :: ks => lruRun cap (lruAccess cap st k).2 ks

/-- The empty cache a decorated function starts from. -/
def lruInit (K : Type) : LruState K := ⟨[], 0⟩

/-- `@lru_cache()` on `load_image` (utils.py line 24): default capacity 128. -/
def load_image_cache_cap : Nat := 128

/-- `@lru_cache(5000)` on `text` (utils.py line 70). -/
def text_cache_cap : Nat := 5000

/-- `@lru_cache(100)` on `ninepatch` (utils.py line 80). -/
def ninepatch_cache_cap : Nat := 100

theorem lruErase_length {K : Type} [DecidableEq K] (es : List (K × Nat))
    (k : K) (v : Nat) (h : lruFind es k = some v) :
    (lruErase es k).length + 1 = es.length := by
  induction es with
  | nil => simp [lruFind] at h
  | cons e es ih =>
    by_cases he : e.1 = k
    · simp [lruErase, he]
    · simp only [lruFind, if_neg he] at h
      simp [lruErase, if_neg he, ih h]

theorem lruAccess_length_le {K : Type} [DecidableEq K] (cap : Nat)
    (st : LruState K) (k : K) (h : st.entries.length ≤ cap) :
    ((lruAccess cap st k).2).entries.length ≤ cap := by
  cases hf : lruFind st.entries k with
  | some v =>
    simp only [lruAccess, hf]
    have := lruErase_length st.entries k v hf
    simpa using by omega
  | none =>
    simp only [lruAccess, hf]
    split
    · rename_i hlt
      simp only [List.length_dropLast, List.length_cons] at *
      omega
    · rename_i hge
      simp only [List.length_cons] at *
      omega

theorem lruRun_length_le {K : Type} [DecidableEq K] (cap : Nat)
    (st : LruState K) (ks : List K) (h : st.entries.length ≤ cap) :
    (lruRun cap st ks).entries.length ≤ cap := by
  induction ks generalizing st with
  | nil => simpa [lruRun] using h
  | cons k ks ih =>
    simp only [lruRun]
    exact ih _ (lruAccess_length_le cap st k h)

theorem lruAccess_full_miss {K : Type} [DecidableEq K] (cap : Nat)
    (st : LruState K) (k : K) (hpos : 0 < cap)
    (hfull : st.entries.length = cap) (hmiss : lruFind st.entries k = none) :
    ((lruAccess cap st k).2).entries
      = (k, st.nextId) :: st.entries.dropLast := by
  simp only [lruAccess, hmiss]
  rw [if_pos (by simp; omega)]
  cases hes : st.entries with
  | nil => rw [hes] at hfull; simp at hfull; omega
  | cons e es => rw [List.dropLast_cons₂]

theorem lruAccess_hit_val {K : Type} [DecidableEq K] (cap : Nat)
    (st : LruState K) (k : K) (v : Nat)
    (h : lruFind st.entries k = some v) : (lruAccess cap st k).1 = v := by
  simp [lruAccess, h]

theorem lruAccess_find_self {K : Type} [DecidableEq K] (cap : Nat)
    (st : LruState K) (k : K) (hpos : 0 < cap) :
    lruFind ((lruAccess cap st k).2).entries k
      = some ((lruAccess cap st k).1) := by
  cases hf : lruFind st.entries k with
  | some v => simp [lruAccess, hf, lruFind]
  | none =>
    simp only [lruAccess, hf]
    split
    · rename_i hlt
      cases hes : st.entries with
      | nil =>
        rw [hes] at hlt
        simp at hlt
        omega
      | cons e es =>
        rw [List.dropLast_cons₂]
        simp [lruFind]
    · simp [lruFind]

theorem lruFind_eq_none {K : Type} [DecidableEq K] (es : List (K × Nat))
    (k : K) (h : ∀ e ∈ es, e.1 ≠ k) : lruFind es k = none := by
  induction es with
  | nil => rfl
  | cons e es ih =>
    simp only [lruFind, if_neg (h e (by simp))]
    exact ih fun e he => h e (by simp [he])

/-- The `name` argument of `font` and `text`: `None`, a string, or a
`pathlib.Path`. -/
inductive FontName
  | none
  | str (s : String)
  | path (p : String)
deriving DecidableEq

/-- Key of the `load_image` cache: `(name, scale, alpha, base)`. -/
abbrev LoadKey := String × ℚ × Bool × String

/-- Key of the `text` cache: `(txt, color, size, font_name)`. -/
abbrev TextKey := String × Nat × Nat × FontName

/-- Key of the `ninepatch` cache: `(surface, rect)` — the surface argument
is hashed by object identity (modelled as an allocation id), the rect
tuple by value. -/
abbrev NinepatchKey := Nat × (Int × Int × Nat × Nat)

/-- A call through the cache of `load_image`. -/
def load_image_cache_access (st : LruState LoadKey) (k : LoadKey) :
    Nat × LruState LoadKey :=
  lruAccess load_image_cache_cap st k

/-- A call through the cache of `text`. -/
def text_cache_access (st : LruState TextKey) (k : TextKey) :
    Nat × LruState TextKey :=
  lruAccess text_cache_cap st k

/-- A call through the cache of `ninepatch`. -/
def ninepatch_cache_access (st : LruState NinepatchKey) (k : NinepatchKey) :
    Nat × LruState NinepatchKey :=
  lruAccess ninepatch_cache_cap st k

/-- The `(i, (0, 0, 30, 30))`-th distinct ninepatch cache key: a distinct
source surface identity with a fixed target rect. -/
def npKey (i : Nat) : NinepatchKey := (i, (0, 0, 30, 30))

/-- 101 distinct ninepatch cache keys. -/
def npKeys101 : List NinepatchKey := (List.range 101).map npKey

/-- C4 counterexample: the ninepatch cache is `lru_cache(100)`, not
unbounded.  After 101 calls with distinct keys, the first key has been
evicted: its entry is gone, and a repeated call with it recomputes
(returns a freshly allocated result, `nextId`, instead of a cached one). -/
theorem ninepatch_cache_eviction_counterexample :
    lruFind (lruRun ninepatch_cache_cap (lruInit NinepatchKey) npKeys101).entries
        (npKey 0) = none ∧
      (ninepatch_cache_access
          (lruRun ninepatch_cache_cap (lruInit NinepatchKey) npKeys101)
          (npKey 0)).1
        = (lruRun ninepatch_cache_cap (lruInit NinepatchKey) npKeys101).nextId := by
  decide

/-- C4 amended: the ninepatch cache is bounded at 100 entries with
least-recently-used eviction: it never holds more than 100 entries; when a
call misses on a full cache the evicted entry is the least recently used
(rearmost) one; and a repeated call with a key still cached returns the
previously computed result without recomputation. -/
theorem ninepatch_cache_bounded_lru :
    (∀ ks : List NinepatchKey,
      (lruRun ninepatch_cache_cap (lruInit NinepatchKey) ks).entries.length
        ≤ 100) ∧
    (∀ (st : LruState NinepatchKey) (k : NinepatchKey),
      st.entries.length = 100 → lruFind st.entries k = none →
      ((ninepatch_cache_access st k).2).entries
        = (k, st.nextId) :: st.entries.dropLast) ∧
    (∀ (st : LruState NinepatchKey) (k : NinepatchKey) (v : Nat),
      lruFind st.entries k = some v → (ninepatch_cache_access st k).1 = v) :=
  ⟨fun ks => lruRun_length_le _ _ ks (by simp [lruInit]),
    fun st k h1 h2 => lruAccess_full_miss _ st k (by decide) h1 h2,
    fun st k v h => lruAccess_hit_val _ st k v h⟩

/-- A full ninepatch cache holding 100 distinct keys. -/
def npStateFull : LruState NinepatchKey :=
  ⟨(List.range 100).map (fun i => (npKey i, i)), 100⟩

/-- Witness for the amended C4 theorem: on the full 100-entry cache, a miss
evicts exactly the rearmost entry, and a hit returns the stored result. -/
theorem ninepatch_cache_bounded_lru_witness :
    npStateFull.entries.length = 100 ∧
      lruFind npStateFull.entries (npKey 100) = none ∧
      ((ninepatch_cache_access npStateFull (npKey 100)).2).entries
        = (npKey 100, npStateFull.nextId) :: npStateFull.entries.dropLast ∧
      lruFind npStateFull.entries (npKey 7) = some 7 ∧
      (ninepatch_cache_access npStateFull (npKey 7)).1 = 7 := by
  refine ⟨by decide, by decide, ?_, by decide, ?_⟩
  · exact ninepatch_cache_bounded_lru.2.1 npStateFull (npKey 100) (by decide)
      (by decide)
  · exact ninepatch_cache_bounded_lru.2.2 npStateFull (npKey 7) 7 (by decide)

/-- C5: the text renderer's cache (`lru_cache(5000)`) is bounded at 5000
entries with least-recently-used eviction: whatever sequence of distinct
argument tuples is rendered, the cache never holds more than 5000 entries,
and the entry evicted when a miss occurs at capacity is exactly the least
recently used (rearmost) one, not an arbitrary one. -/
theorem text_cache_bounded_lru :
    (∀ ks : List TextKey,
      (lruRun text_cache_cap (lruInit TextKey) ks).entries.length ≤ 5000) ∧
    (∀ (st : LruState TextKey) (k : TextKey),
      st.entries.length = 5000 → lruFind st.entries k = none →
      ((text_cache_access st k).2).entries
        = (k, st.nextId) :: st.entries.dropLast) :=
  ⟨fun ks => lruRun_length_le _ _ ks (by simp [lruInit]),
    fun st k h1 h2 => lruAccess_full_miss _ st k (by decide) h1 h2⟩

/-- A full text cache holding 5000 distinct keys (distinct colors). -/
def textStateFull : LruState TextKey :=
  ⟨(List.range 5000).map (fun i => ((("t", i, 20, FontName.none) : TextKey), i)),
    5000⟩

/-- Witness for C5: on the full 5000-entry text cache, a miss with a 5001st
distinct key evicts exactly the rearmost (least recently used) entry. -/
theorem text_cache_bounded_lru_witness :
    textStateFull.entries.length = 5000 ∧
      lruFind textStateFull.entries (("t", 5000, 20, FontName.none) : TextKey)
        = none ∧
      ((text_cache_access textStateFull
            (("t", 5000, 20, FontName.none) : TextKey)).2).entries
        = ((("t", 5000, 20, FontName.none) : TextKey), textStateFull.nextId)
            :: textStateFull.entries.dropLast := by
  have hlen : textStateFull.entries.length = 5000 := by
    simp [textStateFull]
  have hmiss :
      lruFind textStateFull.entries (("t", 5000, 20, FontName.none) : TextKey)
        = none := by
    apply lruFind_eq_none
    intro e he
    simp only [textStateFull, List.mem_map, List.mem_range] at he
    obtain ⟨i, hi, rfl⟩ := he
    simp only [ne_eq, Prod.mk.injEq]
    rintro ⟨-, h2, -⟩
    omega
  exact ⟨hlen, hmiss,
    text_cache_bounded_lru.2 textStateFull _ hlen hmiss⟩

/-- C6: for both the `load_image` cache and the `text` cache, a repeated
call with an identical argument tuple returns the very same cached object
instance (the same allocation identifier, not merely equal contents): a
second consecutive identical call returns exactly the first call's result,
and, in general, whenever the entry is still cached (not yet evicted), the
call returns the stored instance. -/
theorem cache_repeat_same_instance :
    (∀ (st : LruState LoadKey) (k : LoadKey),
      (load_image_cache_access (load_image_cache_access st k).2 k).1
        = (load_image_cache_access st k).1) ∧
    (∀ (st : LruState TextKey) (k : TextKey),
      (text_cache_access (text_cache_access st k).2 k).1
        = (text_cache_access st k).1) ∧
    (∀ (st : LruState LoadKey) (k : LoadKey) (v : Nat),
      lruFind st.entries k = some v → (load_image_cache_access st k).1 = v) ∧
    (∀ (st : LruState TextKey) (k : TextKey) (v : Nat),
      lruFind st.entries k = some v → (text_cache_access st k).1 = v) :=
  ⟨fun st k => lruAccess_hit_val _ _ k _ (lruAccess_find_self _ st k (by decide)),
    fun st k => lruAccess_hit_val _ _ k _ (lruAccess_find_self _ st k (by decide)),
    fun st k v h => lruAccess_hit_val _ st k v h,
    fun st k v h => lruAccess_hit_val _ st k v h⟩

/-- A small `load_image` cache state holding one entry. -/
def loadStateOne : LruState LoadKey := ⟨[(("button", 1, true, "assets"), 5)], 6⟩

/-- A small `text` cache state holding one entry. -/
def textStateOne : LruState TextKey := ⟨[(("play", 3, 20, FontName.none), 9)], 10⟩

/-- Witness for C6: on concrete one-entry caches, the cached instance is
returned as long as the entry is present. -/
theorem cache_repeat_same_instance_witness :
    lruFind loadStateOne.entries (("button", 1, true, "assets") : LoadKey)
        = some 5 ∧
      (load_image_cache_access loadStateOne
          (("button", 1, true, "assets") : LoadKey)).1 = 5 ∧
      lruFind textStateOne.entries (("play", 3, 20, FontName.none) : TextKey)
        = some 9 ∧
      (text_cache_access textStateOne
          (("play", 3, 20, FontName.none) : TextKey)).1 = 9 :=
  ⟨by decide,
    cache_repeat_same_instance.2.2.1 loadStateOne _ 5 (by decide),
    by decide,
    cache_repeat_same_instance.2.2.2 textStateOne _ 9 (by decide)⟩

/-! ## Asset loading -/

/-- Error condition raised when an asset file is missing
(`FileNotFoundError`); the module never catches it. -/
inductive LoadErr
  | notFound
deriving DecidableEq

/-- The filesystem as seen by `pygame.image.load`: the decoded image stored
at a path, if the file exists. -/
abbrev ImageFS := String → Option Surface

/-- The filesystem as seen by `pygame.font.Font`: whether a font file
exists at a path. -/
abbrev FontFS := String → Bool

/-- `ROOT_DIR` from `wclib.constants`: the repository root (its concrete
value is install-dependent and irrelevant to the claims). -/
def ROOT_DIR : String := "WeeklyChallenges"

/-- `SUBMISSION_DIR = Path(__file__).parent`. -/
def SUBMISSION_DIR : String := ROOT_DIR ++ "/03-buttons/bydariogamer"

/-- `ASSETS = SUBMISSION_DIR.parent / "assets"`. -/
def ASSETS : String := ROOT_DIR ++ "/03-buttons/assets"

/-- The path `base / (name + ".png")` read by `load_image`. -/
def image_path (base name : String) : String :=
  base ++ "/" ++ name ++ ".png"

/-- `pygame.image.load(path)`: the decoded image, or a `NotFoundError`
condition when no file matches the path. -/
def pygame_image_load (fs : ImageFS) (path : String) : Except LoadErr Surface :=
  match fs path with
  | some img => Except.ok img
  | none => Except.error LoadErr.notFound

/-- `convert_alpha()`: pixel-format conversion for fast blitting with
per-pixel alpha; pixel content is preserved (identity in this model). -/
def convert_alpha (s : Surface) : Surface := s

/-- `convert()`: pixel-format conversion for fast opaque blitting; pixel
content is preserved (identity in this model). -/
def convert (s : Surface) : Surface := s

/-- `load_image(name, scale, alpha, base)` (utils.py lines 24–48): loads
`base / (name + ".png")`, scales both dimensions by `scale` when it is not
1 (`int(width * scale)` truncates), then converts.  A missing file makes
`pygame.image.load` fail; the error propagates uncaught. -/
def load_image (fs : ImageFS) (name : String) (scale : ℚ) (alpha : Bool)
    (base : String) : Except LoadErr Surface :=
  match pygame_image_load fs (image_path base name) with
  | Except.error e => Except.error e
  | Except.ok image =>
    let image := if scale ≠ 1 then
        transform_scale image
          ((((image.w : ℚ) * scale).floor).toNat,
            (((image.h : ℚ) * scale).floor).toNat)
      else image
    if alpha then Except.ok (convert_alpha image) else Except.ok (convert image)

/-- The font file resolved by `font(size, name)` (utils.py lines 52–67):
`name = name or "regular"` replaces a falsy name (`None`, or the empty
string) by `"regular"`; a `Path` is then used as given, and a string names
a bundled font at `ROOT_DIR / "wclib" / "assets" / (name + ".ttf")`. -/
def font_path : FontName → String
  | FontName.none => ROOT_DIR ++ "/wclib/assets/" ++ "regular" ++ ".ttf"
  | FontName.str s =>
    if s = "" then ROOT_DIR ++ "/wclib/assets/" ++ "regular" ++ ".ttf"
    else ROOT_DIR ++ "/wclib/assets/" ++ s ++ ".ttf"
  | FontName.path p => p

/-- A loaded `pygame.font.Font`, identified by its source file and size. -/
structure Font where
  file : String
  size : Nat
deriving DecidableEq

/-- `font(size, name)`: loads the resolved font file; when the file is
missing, `pygame.font.Font` fails with a `NotFoundError` condition, which
propagates uncaught. -/
def font (fs : FontFS) (size : Nat) (name : FontName) : Except LoadErr Font :=
  if fs (font_path name) then Except.ok ⟨font_path name, size⟩
  else Except.error LoadErr.notFound

/-- `text(txt, color, size, font_name)` (utils.py lines 70–73):
`font(size, font_name).render(str(txt), True, color)`.  The rasterizer is
external; it is modelled as a deterministic function of the resolved font,
the string and the color.  A failure of `font` propagates. -/
def text (fs : FontFS) (txt : String) (color : Nat) (size : Nat)
    (font_name : FontName) : Except LoadErr Surface :=
  match font fs size font_name with
  | Except.error e => Except.error e
  | Except.ok f => Except.ok ⟨txt.length * f.size, f.size, fun _ _ => color⟩

/-- C7: when no file matches `base / (name + ".png")`, `load_image` fails
with the `NotFoundError`-class condition, propagated to the caller
uncaught (no retry, no fallback asset: the result is the error, never an
image); likewise `font` fails when the resolved font file is missing. -/
theorem missing_asset_error :
    (∀ (fs : ImageFS) (name : String) (scale : ℚ) (alpha : Bool)
        (base : String), fs (image_path base name) = none →
      load_image fs name scale alpha base = Except.error LoadErr.notFound) ∧
    (∀ (fs : FontFS) (size : Nat) (name : FontName),
        fs (font_path name) = false →
      font fs size name = Except.error LoadErr.notFound) := by
  constructor
  · intro fs name scale alpha base h
    simp [load_image, pygame_image_load, h]
  · intro fs size name h
    simp [font, h]

/-- An empty image filesystem. -/
def emptyImageFS : ImageFS := fun _ => none

/-- An empty font filesystem. -/
def emptyFontFS : FontFS := fun _ => false

/-- Witness for C7: on empty filesystems, loading the image `"button"` and
the default font both fail with the `NotFoundError` condition. -/
theorem missing_asset_error_witness :
    emptyImageFS (image_path ASSETS "button") = none ∧
      load_image emptyImageFS "button" 1 true ASSETS
        = Except.error LoadErr.notFound ∧
      emptyFontFS (font_path FontName.none) = false ∧
      font emptyFontFS 20 FontName.none = Except.error LoadErr.notFound :=
  ⟨rfl, missing_asset_error.1 emptyImageFS "button" 1 true ASSETS rfl,
    rfl, missing_asset_error.2 emptyFontFS 20 FontName.none rfl⟩

/-- C10: `font(size, None)` resolves the name `None` to the bundled font
named `"regular"`: it resolves to the same file as
`font(size, "regular")`, namely `ROOT_DIR / wclib / assets / regular.ttf`,
and both `font` and `text` behave identically under the two names. -/
theorem font_none_resolves_regular :
    font_path FontName.none = ROOT_DIR ++ "/wclib/assets/regular.ttf" ∧
    font_path FontName.none = font_path (FontName.str "regular") ∧
    (∀ (fs : FontFS) (size : Nat),
      font fs size FontName.none = font fs size (FontName.str "regular")) ∧
    (∀ (fs : FontFS) (txt : String) (color size : Nat),
      text fs txt color size FontName.none
        = text fs txt color size (FontName.str "regular")) := by
  have hfp : font_path (FontName.str "regular") = font_path FontName.none := by
    decide
  refine ⟨by decide, by decide, fun fs size => ?_, fun fs txt color size => ?_⟩
  · simp only [font, hfp]
  · simp only [text, font, hfp]
